import Mathlib

/-!
Verification of the snsproject SNS application core (src/snsapp/views.py,
src/snsapp/urls.py) against its natural-language specification.

The repository is a Django application.  Its views operate on two persisted
entities, Post and Connection (the model definitions live in the repository's
models.py, which is described by the specification's data-model section):

  Post(pk, user, title, content, like)   -- like : many-to-many set of user ids
  Connection(id, user, following)        -- following : many-to-many set of user ids

The database is embedded as explicit state: a list of Post rows and a list of
Connection rows, plus an allocator counter for fresh Connection ids.  Users are
identified by their id (a Nat).  Many-to-many sets are lists of user ids with
set semantics (add is a no-op on members, remove deletes all occurrences).
ORM lookups (Post.objects.get, Connection find) are List.find? over the rows;
a failed Post.objects.get raises DoesNotExist in Django, embedded as Option
none propagating to the caller.
-/

/-- A Post row: primary key, owner user id, title, content, and the likedBy
many-to-many set (`like` field in models.py, per the spec's data model).
Modelled from the spec: Post(id, owner_id FK, title, content) plus the
Post_likes join table, flattened into a per-row list of user ids. -/
structure Post where
  pk : Nat
  user : Nat
  title : String
  content : String
  like : List Nat
deriving Repr, DecidableEq

/-- A Connection row: primary key, owner user id, and the following
many-to-many set.  Modelled from the spec: Connection(id, owner_id FK unique)
plus the Connection_following join table, flattened into a per-row list. -/
structure Connection where
  id : Nat
  user : Nat
  following : List Nat
deriving Repr, DecidableEq

/-- The relational store as seen by the views: all Post rows, all Connection
rows, and the next fresh Connection primary key. -/
structure DB where
  posts : List Post
  connections : List Connection
  nextConnId : Nat
deriving Repr, DecidableEq

namespace DB

/-- Post.objects.get(pk=pk): first row with this primary key, none if absent
(Django raises Post.DoesNotExist, embedded as none). -/
def getPost (db : DB) (pk : Nat) : Option Post :=
  db.posts.find? (fun p => p.pk == pk)

/-- Observable like-membership: whether user u is in the likedBy set of the
post with primary key pk (false if no such post). -/
def likes (db : DB) (pk u : Nat) : Bool :=
  match db.getPost pk with
  | some p => decide (u ∈ p.like)
  | none => false

/-- Observable following set of user u: the following list of u's Connection
row, empty if u has no Connection row yet. -/
def followingOf (db : DB) (u : Nat) : List Nat :=
  match db.connections.find? (fun c => c.user == u) with
  | some c => c.following
  | none => []

/-- Connection.objects.get_or_create(user=u): fetch u's Connection row if it
exists (created = false), otherwise insert a fresh one with an empty following
set (created = true).  Django returns the pair (object, created); the embedding
returns (object, created, resulting store). -/
def getOrCreate (db : DB) (u : Nat) : Connection × Bool × DB :=
  match db.connections.find? (fun c => c.user == u) with
  | some c => (c, false, db)
  | none =>
    let c : Connection := { id := db.nextConnId, user := u, following := [] }
    (c, true,
      { db with connections := db.connections ++ [c], nextConnId := db.nextConnId + 1 })

/-- Well-formedness of the store's Connection primary keys: ids are pairwise
distinct and below the allocator counter (an invariant of any relational
store with an auto-increment primary key). -/
def WF (db : DB) : Prop :=
  (db.connections.map (fun c => c.id)).Nodup ∧
  ∀ c ∈ db.connections, c.id < db.nextConnId

instance (db : DB) : Decidable db.WF := by
  unfold WF; infer_instance

/-- At most one Connection row per user (the spec's Connection-per-User
invariant, enforced by get-or-create). -/
def atMostOneConnPerUser (db : DB) : Prop :=
  (db.connections.map (fun c => c.user)).Nodup

instance (db : DB) : Decidable db.atMostOneConnPerUser := by
  unfold atMostOneConnPerUser; infer_instance

end DB

/-- Home.get_queryset: Post.objects.exclude(user=request.user). -/
def Home_get_queryset (db : DB) (requestUser : Nat) : List Post :=
  db.posts.filter (fun p => p.user ≠ requestUser)

/-- MyPost.get_queryset: Post.objects.filter(user=request.user). -/
def MyPost_get_queryset (db : DB) (requestUser : Nat) : List Post :=
  db.posts.filter (fun p => p.user == requestUser)

/-- A value stored in a template context under the key 'connection'.  Python is
dynamically typed: the code may store either a bare Connection object or the
(object, created) tuple returned by get_or_create; the constructor records
which one was stored. -/
inductive CtxVal where
  | conn (c : Connection)
  | pair (c : Connection) (created : Bool)
deriving Repr, DecidableEq

/-- Home.get_context_data: context['connection'] =
Connection.objects.get_or_create(user=request.user).  The right-hand side is
the (object, created) tuple, stored as-is.  Returns the stored context value
and the resulting store. -/
def Home_get_context_data (db : DB) (requestUser : Nat) : CtxVal × DB :=
  let r := db.getOrCreate requestUser
  (CtxVal.pair r.1 r.2.1, r.2.2)

/-- DetailPost.get_context_data on top of DetailView's object lookup by pk:
none if the post does not exist; otherwise the post, the stored
context['connection'] value (the get_or_create tuple), and the store. -/
def DetailPost_get_context_data (db : DB) (requestUser pk : Nat) :
    Option (Post × CtxVal × DB) :=
  match db.getPost pk with
  | none => none
  | some post =>
    let r := db.getOrCreate requestUser
    some (post, CtxVal.pair r.1 r.2.1, r.2.2)

/-- UpdatePost.test_func / DeletePost.test_func: Post.objects.get(pk=pk) then
post.user == request.user.  none if the post does not exist. -/
def test_func (db : DB) (requestUser pk : Nat) : Option Bool :=
  (db.getPost pk).map (fun post => post.user == requestUser)

/-- Outcome of a guarded mutating view: refused with 403, or permitted and
executed yielding a new store. -/
inductive MutOutcome where
  | forbidden
  | success (db : DB)
deriving Repr, DecidableEq

/-- UpdatePost: UserPassesTestMixin runs test_func; on False the request is
refused with 403 Forbidden, on True UpdateView saves the new title/content of
the post.  The mixin and UpdateView bodies are framework code; their dispatch
is modelled from the spec: authorization guard applied before Update, on
failure the operation is refused (HTTP 403-equivalent). -/
def UpdatePost_handle (db : DB) (requestUser pk : Nat) (title content : String) :
    Option MutOutcome :=
  match db.getPost pk with
  | none => none
  | some post =>
    if post.user = requestUser then
      some (MutOutcome.success
        { db with posts := db.posts.map (fun p =>
            if p.pk = pk then { p with title := title, content := content } else p) })
    else
      some MutOutcome.forbidden

/-- DeletePost: UserPassesTestMixin runs test_func; on False the request is
refused with 403 Forbidden, on True DeleteView removes the post.  The mixin
and DeleteView bodies are framework code; their dispatch is modelled from the
spec: authorization guard applied before Delete, on failure the operation is
refused (HTTP 403-equivalent). -/
def DeletePost_handle (db : DB) (requestUser pk : Nat) : Option MutOutcome :=
  match db.getPost pk with
  | none => none
  | some post =>
    if post.user = requestUser then
      some (MutOutcome.success
        { db with posts := db.posts.filter (fun p => p.pk ≠ pk) })
    else
      some MutOutcome.forbidden

/-- LikeBase.get: fetch the post by pk (DoesNotExist propagates as none), then
if request.user is in its like set remove it, else add it.  Django's
many-to-many add/remove mutate the row in place; the embedding rewrites the
matching row. -/
def LikeBase_get (db : DB) (requestUser pk : Nat) : Option DB :=
  match db.getPost pk with
  | none => none
  | some post =>
    if requestUser ∈ post.like then
      some { db with posts := db.posts.map (fun p =>
        if p.pk = pk then { p with like := p.like.filter (fun x => x ≠ requestUser) } else p) }
    else
      some { db with posts := db.posts.map (fun p =>
        if p.pk = pk then { p with like := requestUser :: p.like } else p) }

/-- FollowBase.get: target_user = Post.objects.get(pk=pk).user (DoesNotExist
propagates as none); my_connection = get_or_create(user=request.user); then
toggle target_user in my_connection[0].following.  The in-place mutation of
the fetched Connection object rewrites the row with that primary key. -/
def FollowBase_get (db : DB) (requestUser pk : Nat) : Option DB :=
  match db.getPost pk with
  | none => none
  | some post =>
    let target := post.user
    let r := db.getOrCreate requestUser
    let conn := r.1
    let db1 := r.2.2
    if target ∈ conn.following then
      some { db1 with connections := db1.connections.map (fun c =>
        if c.id = conn.id then { c with following := c.following.filter (fun x => x ≠ target) } else c) }
    else
      some { db1 with connections := db1.connections.map (fun c =>
        if c.id = conn.id then { c with following := target :: c.following } else c) }

/-- Redirect targets of the concrete like/follow subclasses (urls.py names). -/
inductive Redirect where
  | home
  | detail (pk : Nat)
deriving Repr, DecidableEq

/-- LikeHome.get: LikeBase.get then redirect('home'). -/
def LikeHome_get (db : DB) (requestUser pk : Nat) : Option (DB × Redirect) :=
  (LikeBase_get db requestUser pk).map (fun d => (d, Redirect.home))

/-- LikeDetail.get: LikeBase.get then redirect('detail', pk). -/
def LikeDetail_get (db : DB) (requestUser pk : Nat) : Option (DB × Redirect) :=
  (LikeBase_get db requestUser pk).map (fun d => (d, Redirect.detail pk))

/-- FollowHome.get: FollowBase.get then redirect('home'). -/
def FollowHome_get (db : DB) (requestUser pk : Nat) : Option (DB × Redirect) :=
  (FollowBase_get db requestUser pk).map (fun d => (d, Redirect.home))

/-- FollowDetail.get: FollowBase.get then redirect('detail', pk). -/
def FollowDetail_get (db : DB) (requestUser pk : Nat) : Option (DB × Redirect) :=
  (FollowBase_get db requestUser pk).map (fun d => (d, Redirect.detail pk))

/-- FollowList.get_queryset: my_connection = get_or_create(user=request.user);
all_follow = my_connection[0].following.all();
Post.objects.filter(user__in=all_follow).  Returns the queryset and the store
(get_or_create may have inserted a Connection row). -/
def FollowList_get_queryset (db : DB) (requestUser : Nat) : List Post × DB :=
  let r := db.getOrCreate requestUser
  (r.2.2.posts.filter (fun p => p.user ∈ r.1.following), r.2.2)

/-- FollowList.get_context_data: context['connection'] = the get_or_create
tuple, stored as-is, same pattern as Home.get_context_data. -/
def FollowList_get_context_data (db : DB) (requestUser : Nat) : CtxVal × DB :=
  let r := db.getOrCreate requestUser
  (CtxVal.pair r.1 r.2.1, r.2.2)

/-- The per-row update performed by LikeBase.get, as a function of the fetched
post's current like set. -/
def likeUpd (post : Post) (u : Nat) (p : Post) : Post :=
  if u ∈ post.like then { p with like := p.like.filter (fun x => x ≠ u) }
  else { p with like := u :: p.like }

/-- The per-row update performed by FollowBase.get, as a function of the
toggled target user and the acting user's current following set. -/
def followUpd (target : Nat) (cur : List Nat) (c : Connection) : Connection :=
  if target ∈ cur then { c with following := c.following.filter (fun x => x ≠ target) }
  else { c with following := target :: c.following }

/-! ### Helper lemmas about the store operations -/

namespace DB

theorem getOrCreate_posts (db : DB) (u : Nat) :
    ((db.getOrCreate u).2.2).posts = db.posts := by
  unfold getOrCreate
  cases h : db.connections.find? (fun c => c.user == u) <;> simp

theorem getOrCreate_user (db : DB) (u : Nat) : (db.getOrCreate u).1.user = u := by
  unfold getOrCreate
  cases h : db.connections.find? (fun c => c.user == u) with
  | none => rfl
  | some c =>
    have hc := List.find?_some h
    simp only [beq_iff_eq] at hc
    simpa using hc

theorem getOrCreate_following (db : DB) (u : Nat) :
    (db.getOrCreate u).1.following = db.followingOf u := by
  unfold getOrCreate followingOf
  cases h : db.connections.find? (fun c => c.user == u) <;> rfl

theorem getOrCreate_find (db : DB) (u : Nat) :
    ((db.getOrCreate u).2.2).connections.find? (fun c => c.user == u)
      = some (db.getOrCreate u).1 := by
  unfold getOrCreate
  cases h : db.connections.find? (fun c => c.user == u) with
  | none => simp [List.find?_append, h]
  | some c => simpa using h

theorem getOrCreate_followingOf (db : DB) (u v : Nat) :
    ((db.getOrCreate u).2.2).followingOf v = db.followingOf v := by
  unfold getOrCreate
  cases h : db.connections.find? (fun c => c.user == u) with
  | some c => rfl
  | none =>
    show DB.followingOf _ v = db.followingOf v
    unfold followingOf
    by_cases hv : v = u
    · subst hv
      simp [List.find?_append, h]
    · have huv : ¬u = v := fun h => hv h.symm
      have hb : (u == v) = false := by simpa using huv
      simp [List.find?_append, hb]

end DB

/-- find? by primary key after a conditional per-row update that preserves the
primary key: the found row is the update of the originally found row. -/
theorem find?_map_updPost (l : List Post) (pk : Nat) (f : Post → Post)
    (hf : ∀ p, (f p).pk = p.pk) :
    (l.map (fun p => if p.pk = pk then f p else p)).find? (fun p => p.pk == pk)
      = (l.find? (fun p => p.pk == pk)).map f := by
  induction l with
  | nil => rfl
  | cons p ps ih =>
    by_cases hp : p.pk = pk
    · simp [hp, hf]
    · simp [hp, ih]

/-- find? by user after a conditional per-row update keyed on the Connection
id, when the update preserves the user field. -/
theorem find?_map_updConn (l : List Connection) (u cid : Nat) (f : Connection → Connection)
    (hf : ∀ c, (f c).user = c.user) :
    (l.map (fun c => if c.id = cid then f c else c)).find? (fun c => c.user == u)
      = (l.find? (fun c => c.user == u)).map (fun c => if c.id = cid then f c else c) := by
  induction l with
  | nil => rfl
  | cons c cs ih =>
    by_cases hc : c.id = cid
    · by_cases hu : c.user = u
      · simp [hc, hu, hf]
      · simp [hc, hu, hf, ih]
    · by_cases hu : c.user = u
      · simp [hc, hu]
      · simp [hc, hu, ih]

theorem likeUpd_pk (post : Post) (u : Nat) (p : Post) : (likeUpd post u p).pk = p.pk := by
  unfold likeUpd
  by_cases hm : u ∈ post.like <;> simp [hm]

theorem LikeBase_get_eq (db : DB) (u pk : Nat) (post : Post)
    (h : db.getPost pk = some post) :
    LikeBase_get db u pk = some { db with posts := db.posts.map (fun p =>
      if p.pk = pk then likeUpd post u p else p) } := by
  unfold LikeBase_get likeUpd
  rw [h]
  by_cases hm : u ∈ post.like <;> simp [hm]

theorem getPost_after_like (db : DB) (u pk : Nat) (post : Post)
    (h : db.getPost pk = some post) (db1 : DB) (h1 : LikeBase_get db u pk = some db1) :
    db1.getPost pk = some (likeUpd post u post) := by
  rw [LikeBase_get_eq db u pk post h] at h1
  cases h1
  show DB.getPost _ pk = _
  unfold DB.getPost at h ⊢
  simp only
  rw [find?_map_updPost db.posts pk (likeUpd post u) (likeUpd_pk post u), h]
  rfl

theorem likes_after_like (db : DB) (u pk : Nat) (post : Post)
    (h : db.getPost pk = some post) (db1 : DB) (h1 : LikeBase_get db u pk = some db1) :
    db1.likes pk u = !(db.likes pk u) := by
  have h2 := getPost_after_like db u pk post h db1 h1
  unfold DB.likes
  rw [h, h2]
  unfold likeUpd
  by_cases hm : u ∈ post.like <;> simp [hm, List.mem_filter]

theorem likes_other_after_like (db : DB) (u pk : Nat) (post : Post)
    (h : db.getPost pk = some post) (db1 : DB) (h1 : LikeBase_get db u pk = some db1)
    (v : Nat) (hv : v ≠ u) : db1.likes pk v = db.likes pk v := by
  have h2 := getPost_after_like db u pk post h db1 h1
  unfold DB.likes
  rw [h, h2]
  unfold likeUpd
  by_cases hm : u ∈ post.like <;> simp [hm, List.mem_filter, hv]

theorem followUpd_user (target : Nat) (cur : List Nat) (c : Connection) :
    (followUpd target cur c).user = c.user := by
  unfold followUpd
  by_cases hm : target ∈ cur <;> simp [hm]

theorem FollowBase_get_eq (db : DB) (u pk : Nat) (post : Post)
    (h : db.getPost pk = some post) :
    FollowBase_get db u pk = some
      { (db.getOrCreate u).2.2 with
        connections := ((db.getOrCreate u).2.2).connections.map (fun c =>
          if c.id = (db.getOrCreate u).1.id then
            followUpd post.user (db.followingOf u) c else c) } := by
  unfold FollowBase_get followUpd
  rw [h]
  simp only [DB.getOrCreate_following]
  by_cases hm : post.user ∈ db.followingOf u <;> simp [hm]

theorem posts_after_follow (db : DB) (u pk : Nat) (post : Post)
    (h : db.getPost pk = some post) (db1 : DB) (h1 : FollowBase_get db u pk = some db1) :
    db1.posts = db.posts := by
  rw [FollowBase_get_eq db u pk post h] at h1
  cases h1
  exact DB.getOrCreate_posts db u

theorem DB.followingOf_eq_of_find (db : DB) (u : Nat) (c : Connection)
    (h : db.connections.find? (fun c => c.user == u) = some c) :
    db.followingOf u = c.following := by
  unfold DB.followingOf
  rw [h]

theorem followingOf_after_follow (db : DB) (u pk : Nat) (post : Post)
    (h : db.getPost pk = some post) (db1 : DB) (h1 : FollowBase_get db u pk = some db1) :
    db1.followingOf u =
      (if post.user ∈ db.followingOf u
       then (db.followingOf u).filter (fun x => x ≠ post.user)
       else post.user :: db.followingOf u) := by
  rw [FollowBase_get_eq db u pk post h] at h1
  cases h1
  have hfind : ({ (db.getOrCreate u).2.2 with
        connections := ((db.getOrCreate u).2.2).connections.map (fun c =>
          if c.id = (db.getOrCreate u).1.id then
            followUpd post.user (db.followingOf u) c else c) } : DB).connections.find?
          (fun c => c.user == u)
      = some (followUpd post.user (db.followingOf u) (db.getOrCreate u).1) := by
    show (((db.getOrCreate u).2.2).connections.map _).find? _ = _
    rw [find?_map_updConn _ u (db.getOrCreate u).1.id
      (followUpd post.user (db.followingOf u)) (followUpd_user post.user (db.followingOf u)),
      DB.getOrCreate_find db u]
    simp
  rw [DB.followingOf_eq_of_find _ u _ hfind]
  unfold followUpd
  by_cases hm : post.user ∈ db.followingOf u <;>
    simp [hm, DB.getOrCreate_following]

theorem DB.getOrCreate_eq_found (db : DB) (u : Nat) (c : Connection)
    (h : db.connections.find? (fun x => x.user == u) = some c) :
    db.getOrCreate u = (c, false, db) := by
  unfold DB.getOrCreate
  rw [h]

theorem DB.getOrCreate_eq_created (db : DB) (u : Nat)
    (h : db.connections.find? (fun x => x.user == u) = none) :
    db.getOrCreate u =
      ({ id := db.nextConnId, user := u, following := [] }, true,
       { db with
         connections :=
           db.connections ++ [{ id := db.nextConnId, user := u, following := [] }],
         nextConnId := db.nextConnId + 1 }) := by
  unfold DB.getOrCreate
  rw [h]

theorem DB.followingOf_eq_nil_of_find (db : DB) (u : Nat)
    (h : db.connections.find? (fun c => c.user == u) = none) :
    db.followingOf u = [] := by
  unfold DB.followingOf
  rw [h]

theorem connections_after_like (db : DB) (u pk : Nat) (post : Post)
    (h : db.getPost pk = some post) (db1 : DB) (h1 : LikeBase_get db u pk = some db1) :
    db1.connections = db.connections ∧ db1.nextConnId = db.nextConnId := by
  rw [LikeBase_get_eq db u pk post h] at h1
  cases h1
  exact ⟨rfl, rfl⟩

theorem followingOf_other_after_follow (db : DB) (u pk : Nat) (post : Post)
    (hWF : db.WF) (h : db.getPost pk = some post)
    (db1 : DB) (h1 : FollowBase_get db u pk = some db1)
    (v : Nat) (hv : v ≠ u) : db1.followingOf v = db.followingOf v := by
  rw [FollowBase_get_eq db u pk post h] at h1
  cases h1
  cases hg : db.connections.find? (fun x => x.user == u) with
  | some conn0 =>
    rw [DB.getOrCreate_eq_found db u conn0 hg]
    have hfind := find?_map_updConn db.connections v conn0.id
      (followUpd post.user (db.followingOf u)) (followUpd_user post.user (db.followingOf u))
    cases hf : db.connections.find? (fun c => c.user == v) with
    | none =>
      rw [hf] at hfind
      rw [DB.followingOf_eq_nil_of_find db v hf]
      exact DB.followingOf_eq_nil_of_find _ v (by simpa using hfind)
    | some c1 =>
      rw [hf] at hfind
      have hc1u : c1.user = v := by simpa using List.find?_some hf
      have hc1m : c1 ∈ db.connections := List.mem_of_find?_eq_some hf
      have hconn0m : conn0 ∈ db.connections := List.mem_of_find?_eq_some hg
      have hconn0u : conn0.user = u := by simpa using List.find?_some hg
      have hne : ¬c1.id = conn0.id := by
        intro hid
        have hceq : c1 = conn0 :=
          List.inj_on_of_nodup_map hWF.1 hc1m hconn0m hid
        rw [hceq, hconn0u] at hc1u
        exact hv hc1u.symm
      rw [DB.followingOf_eq_of_find db v c1 hf]
      refine DB.followingOf_eq_of_find _ v c1 ?_
      simpa [hne] using hfind
  | none =>
    rw [DB.getOrCreate_eq_created db u hg]
    have hnew : ((db.connections ++
        [({ id := db.nextConnId, user := u, following := [] } : Connection)]).find?
          (fun c => c.user == v))
        = db.connections.find? (fun c => c.user == v) := by
      have hb : (u == v) = false := by
        simpa using fun hh : u = v => hv hh.symm
      simp [List.find?_append, hb]
    have hfind := find?_map_updConn
      (db.connections ++ [({ id := db.nextConnId, user := u, following := [] } : Connection)]) v
      db.nextConnId
      (followUpd post.user (db.followingOf u)) (followUpd_user post.user (db.followingOf u))
    rw [hnew] at hfind
    cases hf : db.connections.find? (fun c => c.user == v) with
    | none =>
      rw [hf] at hfind
      rw [DB.followingOf_eq_nil_of_find db v hf]
      exact DB.followingOf_eq_nil_of_find _ v (by simpa using hfind)
    | some c1 =>
      rw [hf] at hfind
      have hc1m : c1 ∈ db.connections := List.mem_of_find?_eq_some hf
      have hne : ¬c1.id = db.nextConnId :=
        Nat.ne_of_lt (hWF.2 c1 hc1m)
      rw [DB.followingOf_eq_of_find db v c1 hf]
      refine DB.followingOf_eq_of_find _ v c1 ?_
      simpa [hne] using hfind

theorem LikeBase_get_of_none (db : DB) (u pk : Nat) (h : db.getPost pk = none) :
    LikeBase_get db u pk = none := by
  unfold LikeBase_get
  rw [h]

theorem FollowBase_get_of_none (db : DB) (u pk : Nat) (h : db.getPost pk = none) :
    FollowBase_get db u pk = none := by
  unfold FollowBase_get
  rw [h]

theorem getOrCreate_preserves_atMostOne (db : DB) (u : Nat)
    (h : db.atMostOneConnPerUser) :
    ((db.getOrCreate u).2.2).atMostOneConnPerUser := by
  cases hg : db.connections.find? (fun x => x.user == u) with
  | some c =>
    rw [DB.getOrCreate_eq_found db u c hg]
    exact h
  | none =>
    rw [DB.getOrCreate_eq_created db u hg]
    unfold DB.atMostOneConnPerUser at h ⊢
    have hmem : ∀ c ∈ db.connections, ¬c.user = u := by
      intro c hc
      have := List.find?_eq_none.mp hg c hc
      simpa using this
    simp only [List.map_append, List.map_cons, List.map_nil]
    rw [List.nodup_append]
    refine ⟨h, List.nodup_singleton u, ?_⟩
    intro x hx hxu
    simp only [List.mem_map] at hx
    obtain ⟨c, hc, hcu⟩ := hx
    simp only [List.mem_singleton] at hxu
    exact hmem c hc (by rw [hcu, hxu])

theorem map_user_map_updConn (l : List Connection) (cid : Nat) (f : Connection → Connection)
    (hf : ∀ c, (f c).user = c.user) :
    (l.map (fun c => if c.id = cid then f c else c)).map (fun c => c.user)
      = l.map (fun c => c.user) := by
  rw [List.map_map]
  refine List.map_congr_left ?_
  intro c hc
  by_cases h : c.id = cid <;> simp [h, hf]

theorem follow_preserves_atMostOne (db : DB) (u pk : Nat)
    (h : db.atMostOneConnPerUser) (db1 : DB) (h1 : FollowBase_get db u pk = some db1) :
    db1.atMostOneConnPerUser := by
  cases hp : db.getPost pk with
  | none => rw [FollowBase_get_of_none db u pk hp] at h1; cases h1
  | some post =>
    rw [FollowBase_get_eq db u pk post hp] at h1
    cases h1
    unfold DB.atMostOneConnPerUser
    show ((((db.getOrCreate u).2.2).connections.map _).map _).Nodup
    rw [map_user_map_updConn _ (db.getOrCreate u).1.id
      (followUpd post.user (db.followingOf u)) (followUpd_user post.user (db.followingOf u))]
    exact getOrCreate_preserves_atMostOne db u h

/-! ### Claim theorems -/

/-- C1: one call of the shared toggle algorithm (LikeBase.get for a post's
likedBy set, FollowBase.get for a connection's following set) removes the
toggled user from the set if currently a member and adds the user otherwise:
the resulting membership state is the negation of the prior one. -/
theorem C1_toggle_negates_membership (db : DB) (u pk : Nat) (post : Post)
    (h : db.getPost pk = some post) :
    (∃ db1, LikeBase_get db u pk = some db1 ∧ db1.likes pk u = !(db.likes pk u)) ∧
    (∃ db2, FollowBase_get db u pk = some db2 ∧
      (post.user ∈ db2.followingOf u ↔ ¬post.user ∈ db.followingOf u)) := by
  constructor
  · exact ⟨_, LikeBase_get_eq db u pk post h,
      likes_after_like db u pk post h _ (LikeBase_get_eq db u pk post h)⟩
  · refine ⟨_, FollowBase_get_eq db u pk post h, ?_⟩
    rw [followingOf_after_follow db u pk post h _ (FollowBase_get_eq db u pk post h)]
    by_cases hm : post.user ∈ db.followingOf u <;> simp [hm, List.mem_filter]

/-- Witness for C1 at a concrete store: one post (pk 1, owner 10), acting
user 20. -/
theorem C1_witness :
    (∃ db1,
      LikeBase_get (⟨[⟨1, 10, "t", "c", []⟩], [], 0⟩ : DB) 20 1 = some db1 ∧
      db1.likes 1 20 = !(DB.likes (⟨[⟨1, 10, "t", "c", []⟩], [], 0⟩ : DB) 1 20)) ∧
    (∃ db2,
      FollowBase_get (⟨[⟨1, 10, "t", "c", []⟩], [], 0⟩ : DB) 20 1 = some db2 ∧
      ((10 : Nat) ∈ db2.followingOf 20 ↔
        ¬(10 : Nat) ∈ DB.followingOf (⟨[⟨1, 10, "t", "c", []⟩], [], 0⟩ : DB) 20)) :=
  C1_toggle_negates_membership _ 20 1 ⟨1, 10, "t", "c", []⟩ rfl

/-- C2: the guard before Update and Delete on a Post is exactly the predicate
post.user == acting user (test_func); when it is false the operation is
refused with Forbidden, when it is true the operation proceeds and succeeds. -/
theorem C2_owner_guard (db : DB) (u pk : Nat) (post : Post) (title content : String)
    (h : db.getPost pk = some post) :
    test_func db u pk = some (post.user == u) ∧
    (post.user ≠ u →
      UpdatePost_handle db u pk title content = some MutOutcome.forbidden ∧
      DeletePost_handle db u pk = some MutOutcome.forbidden) ∧
    (post.user = u →
      (∃ db1, UpdatePost_handle db u pk title content = some (MutOutcome.success db1)) ∧
      (∃ db2, DeletePost_handle db u pk = some (MutOutcome.success db2))) := by
  refine ⟨?_, ?_, ?_⟩
  · unfold test_func
    rw [h]
    rfl
  · intro hne
    unfold UpdatePost_handle DeletePost_handle
    rw [h]
    constructor <;> simp [hne]
  · intro heq
    unfold UpdatePost_handle DeletePost_handle
    rw [h]
    constructor
    · exact ⟨_, by dsimp only; rw [if_pos heq]⟩
    · exact ⟨_, by dsimp only; rw [if_pos heq]⟩

/-- Witness for C2: post pk 1 owned by user 10; the store has one post. -/
theorem C2_witness :
    test_func (⟨[⟨1, 10, "t", "c", []⟩], [], 0⟩ : DB) 10 1 = some ((10 : Nat) == 10) ∧
    ((10 : Nat) ≠ 10 →
      UpdatePost_handle (⟨[⟨1, 10, "t", "c", []⟩], [], 0⟩ : DB) 10 1 "a" "b"
        = some MutOutcome.forbidden ∧
      DeletePost_handle (⟨[⟨1, 10, "t", "c", []⟩], [], 0⟩ : DB) 10 1
        = some MutOutcome.forbidden) ∧
    ((10 : Nat) = 10 →
      (∃ db1, UpdatePost_handle (⟨[⟨1, 10, "t", "c", []⟩], [], 0⟩ : DB) 10 1 "a" "b"
        = some (MutOutcome.success db1)) ∧
      (∃ db2, DeletePost_handle (⟨[⟨1, 10, "t", "c", []⟩], [], 0⟩ : DB) 10 1
        = some (MutOutcome.success db2))) :=
  C2_owner_guard _ 10 1 ⟨1, 10, "t", "c", []⟩ "a" "b" rfl

/-- C3: Home (list-others) and MyPost (list-mine) partition the stored posts
by ownership relative to the acting user: a post not owned by u appears in
list-others(u) and not in list-mine(u); every post appears in
list-mine(owner) and not in list-others(owner). -/
theorem C3_partition (db : DB) (P : Post) (u : Nat) (hP : P ∈ db.posts) :
    (P.user ≠ u → P ∈ Home_get_queryset db u ∧ P ∉ MyPost_get_queryset db u) ∧
    (P ∈ MyPost_get_queryset db P.user ∧ P ∉ Home_get_queryset db P.user) := by
  unfold Home_get_queryset MyPost_get_queryset
  constructor
  · intro hne
    constructor <;> simp [List.mem_filter, hP, hne]
  · constructor <;> simp [List.mem_filter, hP]

/-- Witness for C3: store with one post owned by 10, acting user 20. -/
theorem C3_witness :
    ((Post.user ⟨1, 10, "t", "c", []⟩ ≠ 20 →
      (⟨1, 10, "t", "c", []⟩ : Post) ∈ Home_get_queryset (⟨[⟨1, 10, "t", "c", []⟩], [], 0⟩ : DB) 20 ∧
      (⟨1, 10, "t", "c", []⟩ : Post) ∉ MyPost_get_queryset (⟨[⟨1, 10, "t", "c", []⟩], [], 0⟩ : DB) 20) ∧
    ((⟨1, 10, "t", "c", []⟩ : Post) ∈
        MyPost_get_queryset (⟨[⟨1, 10, "t", "c", []⟩], [], 0⟩ : DB) (Post.user ⟨1, 10, "t", "c", []⟩) ∧
      (⟨1, 10, "t", "c", []⟩ : Post) ∉
        Home_get_queryset (⟨[⟨1, 10, "t", "c", []⟩], [], 0⟩ : DB) (Post.user ⟨1, 10, "t", "c", []⟩))) :=
  C3_partition (⟨[⟨1, 10, "t", "c", []⟩], [], 0⟩ : DB) ⟨1, 10, "t", "c", []⟩ 20 (by decide)

/-- C4: two consecutive like toggles by the same user on the same post
restore the original membership, and each call flips it exactly once. -/
theorem C4_like_double_toggle (db : DB) (u pk : Nat) (post : Post)
    (h : db.getPost pk = some post) :
    ∃ db1 db2, LikeBase_get db u pk = some db1 ∧ LikeBase_get db1 u pk = some db2 ∧
      db1.likes pk u = !(db.likes pk u) ∧
      db2.likes pk u = !(db1.likes pk u) ∧
      db2.likes pk u = db.likes pk u := by
  have h1 := LikeBase_get_eq db u pk post h
  have hpost1 := getPost_after_like db u pk post h _ h1
  have h2 := LikeBase_get_eq _ u pk _ hpost1
  have e1 := likes_after_like db u pk post h _ h1
  have e2 := likes_after_like _ u pk _ hpost1 _ h2
  exact ⟨_, _, h1, h2, e1, e2, by rw [e2, e1, Bool.not_not]⟩

/-- Witness for C4 at a concrete store: post pk 1, acting user 20. -/
theorem C4_witness :
    ∃ db1 db2,
      LikeBase_get (⟨[⟨1, 10, "t", "c", []⟩], [], 0⟩ : DB) 20 1 = some db1 ∧
      LikeBase_get db1 20 1 = some db2 ∧
      db1.likes 1 20 = !(DB.likes (⟨[⟨1, 10, "t", "c", []⟩], [], 0⟩ : DB) 1 20) ∧
      db2.likes 1 20 = !(db1.likes 1 20) ∧
      db2.likes 1 20 = DB.likes (⟨[⟨1, 10, "t", "c", []⟩], [], 0⟩ : DB) 1 20 :=
  C4_like_double_toggle _ 20 1 ⟨1, 10, "t", "c", []⟩ rfl

theorem FollowList_mem (d : DB) (v : Nat) (Q : Post) :
    Q ∈ (FollowList_get_queryset d v).1 ↔ Q ∈ d.posts ∧ Q.user ∈ d.followingOf v := by
  show Q ∈ ((d.getOrCreate v).2.2).posts.filter
      (fun p => p.user ∈ (d.getOrCreate v).1.following) ↔ _
  rw [DB.getOrCreate_posts, DB.getOrCreate_following]
  simp [List.mem_filter]

/-- C5: when the owner of post P is not yet followed by the acting user, a
follow toggle issued against P makes P appear in list-following, and a second
toggle makes it disappear; list-following returns exactly the posts whose
owner is in the acting user's following set. -/
theorem C5_follow_then_list (db : DB) (u pk : Nat) (post : Post)
    (h : db.getPost pk = some post) (hnf : post.user ∉ db.followingOf u) :
    (∃ db1 db2, FollowBase_get db u pk = some db1 ∧
      post ∈ (FollowList_get_queryset db1 u).1 ∧
      FollowBase_get db1 u pk = some db2 ∧
      post ∉ (FollowList_get_queryset db2 u).1) ∧
    (∀ (d : DB) (v : Nat) (Q : Post),
      Q ∈ (FollowList_get_queryset d v).1 ↔ Q ∈ d.posts ∧ Q.user ∈ d.followingOf v) := by
  refine ⟨?_, FollowList_mem⟩
  obtain ⟨db1, h1⟩ : ∃ db1, FollowBase_get db u pk = some db1 :=
    ⟨_, FollowBase_get_eq db u pk post h⟩
  have p1 := posts_after_follow db u pk post h db1 h1
  have f1 := followingOf_after_follow db u pk post h db1 h1
  rw [if_neg hnf] at f1
  have hp1 : db1.getPost pk = some post := by
    unfold DB.getPost at h ⊢
    rw [p1]
    exact h
  obtain ⟨db2, h2⟩ : ∃ d, FollowBase_get db1 u pk = some d :=
    ⟨_, FollowBase_get_eq db1 u pk post hp1⟩
  have f2 := followingOf_after_follow db1 u pk post hp1 db2 h2
  have hmem1 : post.user ∈ db1.followingOf u := by
    rw [f1]
    exact List.mem_cons_self _ _
  rw [if_pos hmem1] at f2
  refine ⟨db1, db2, h1, ?_, h2, ?_⟩
  · rw [FollowList_mem]
    exact ⟨by rw [p1]; exact List.mem_of_find?_eq_some h, hmem1⟩
  · rw [FollowList_mem]
    rintro ⟨-, hmem2⟩
    rw [f2] at hmem2
    simp [List.mem_filter] at hmem2

/-- Witness for C5: store with one post (pk 1, owner 10), acting user 20 who
follows nobody. -/
theorem C5_witness :
    ((∃ db1 db2, FollowBase_get (⟨[⟨1, 10, "t", "c", []⟩], [], 0⟩ : DB) 20 1 = some db1 ∧
      (⟨1, 10, "t", "c", []⟩ : Post) ∈ (FollowList_get_queryset db1 20).1 ∧
      FollowBase_get db1 20 1 = some db2 ∧
      (⟨1, 10, "t", "c", []⟩ : Post) ∉ (FollowList_get_queryset db2 20).1) ∧
    (∀ (d : DB) (v : Nat) (Q : Post),
      Q ∈ (FollowList_get_queryset d v).1 ↔ Q ∈ d.posts ∧ Q.user ∈ d.followingOf v)) :=
  C5_follow_then_list _ 20 1 ⟨1, 10, "t", "c", []⟩ rfl (by decide)

/-- C6: get-or-create keeps at most one Connection per user: a second access
right after a first returns the same Connection row with created = false and
an unchanged store, and the at-most-one-Connection-per-user invariant is
preserved by every operation that touches Connections (get-or-create itself,
the list-others and detail and list-following context builders, the follow
toggle, and trivially the like toggle, which leaves Connections unchanged). -/
theorem C6_connection_get_or_create (db : DB) (u pk : Nat)
    (h : db.atMostOneConnPerUser) :
    (((db.getOrCreate u).2.2).getOrCreate u
        = ((db.getOrCreate u).1, false, (db.getOrCreate u).2.2)) ∧
    ((db.getOrCreate u).2.2).atMostOneConnPerUser ∧
    ((Home_get_context_data db u).2).atMostOneConnPerUser ∧
    ((FollowList_get_queryset db u).2).atMostOneConnPerUser ∧
    (∀ r, DetailPost_get_context_data db u pk = some r →
      r.2.2.atMostOneConnPerUser) ∧
    (∀ db1, FollowBase_get db u pk = some db1 → db1.atMostOneConnPerUser) ∧
    (∀ db1, LikeBase_get db u pk = some db1 →
      db1.connections = db.connections ∧ db1.atMostOneConnPerUser) := by
  refine ⟨DB.getOrCreate_eq_found _ u _ (DB.getOrCreate_find db u),
    getOrCreate_preserves_atMostOne db u h,
    getOrCreate_preserves_atMostOne db u h,
    getOrCreate_preserves_atMostOne db u h,
    ?_, ?_, ?_⟩
  · intro r hr
    unfold DetailPost_get_context_data at hr
    cases hp : db.getPost pk with
    | none => rw [hp] at hr; cases hr
    | some post =>
      rw [hp] at hr
      cases hr
      exact getOrCreate_preserves_atMostOne db u h
  · exact fun db1 h1 => follow_preserves_atMostOne db u pk h db1 h1
  · intro db1 h1
    cases hp : db.getPost pk with
    | none => rw [LikeBase_get_of_none db u pk hp] at h1; cases h1
    | some post =>
      have hc := (connections_after_like db u pk post hp db1 h1).1
      refine ⟨hc, ?_⟩
      unfold DB.atMostOneConnPerUser at h ⊢
      rw [hc]
      exact h

/-- Witness for C6: store with one connection (user 20), acting user 30 with
no connection yet, pk 1 absent and present cases both exercised via pk 1. -/
theorem C6_witness :
    ((((⟨[⟨1, 10, "t", "c", []⟩], [⟨0, 20, []⟩], 1⟩ : DB).getOrCreate 30).2.2).getOrCreate 30
        = (((⟨[⟨1, 10, "t", "c", []⟩], [⟨0, 20, []⟩], 1⟩ : DB).getOrCreate 30).1, false,
           ((⟨[⟨1, 10, "t", "c", []⟩], [⟨0, 20, []⟩], 1⟩ : DB).getOrCreate 30).2.2)) ∧
    (((⟨[⟨1, 10, "t", "c", []⟩], [⟨0, 20, []⟩], 1⟩ : DB).getOrCreate 30).2.2).atMostOneConnPerUser ∧
    ((Home_get_context_data (⟨[⟨1, 10, "t", "c", []⟩], [⟨0, 20, []⟩], 1⟩ : DB) 30).2).atMostOneConnPerUser ∧
    ((FollowList_get_queryset (⟨[⟨1, 10, "t", "c", []⟩], [⟨0, 20, []⟩], 1⟩ : DB) 30).2).atMostOneConnPerUser ∧
    (∀ r, DetailPost_get_context_data (⟨[⟨1, 10, "t", "c", []⟩], [⟨0, 20, []⟩], 1⟩ : DB) 30 1 = some r →
      r.2.2.atMostOneConnPerUser) ∧
    (∀ db1, FollowBase_get (⟨[⟨1, 10, "t", "c", []⟩], [⟨0, 20, []⟩], 1⟩ : DB) 30 1 = some db1 →
      db1.atMostOneConnPerUser) ∧
    (∀ db1, LikeBase_get (⟨[⟨1, 10, "t", "c", []⟩], [⟨0, 20, []⟩], 1⟩ : DB) 30 1 = some db1 →
      db1.connections = (⟨[⟨1, 10, "t", "c", []⟩], [⟨0, 20, []⟩], 1⟩ : DB).connections ∧
      db1.atMostOneConnPerUser) :=
  C6_connection_get_or_create _ 30 1 (by decide)

/-- C7: the user whose membership the follow toggle changes is exactly the
owner of the post named by the request's pk: that owner's membership in the
acting user's following set flips, and every other user's membership in that
set is unchanged. -/
theorem C7_follow_target_is_post_owner (db : DB) (u pk : Nat) (post : Post)
    (h : db.getPost pk = some post) :
    ∃ db1, FollowBase_get db u pk = some db1 ∧
      (post.user ∈ db1.followingOf u ↔ ¬post.user ∈ db.followingOf u) ∧
      (∀ v, v ≠ post.user → (v ∈ db1.followingOf u ↔ v ∈ db.followingOf u)) := by
  refine ⟨_, FollowBase_get_eq db u pk post h, ?_, ?_⟩
  · rw [followingOf_after_follow db u pk post h _ (FollowBase_get_eq db u pk post h)]
    by_cases hm : post.user ∈ db.followingOf u <;> simp [hm, List.mem_filter]
  · intro v hv
    rw [followingOf_after_follow db u pk post h _ (FollowBase_get_eq db u pk post h)]
    by_cases hm : post.user ∈ db.followingOf u <;> simp [hm, List.mem_filter, hv]

/-- Witness for C7: post pk 1 owned by user 10, acting user 20. -/
theorem C7_witness :
    ∃ db1, FollowBase_get (⟨[⟨1, 10, "t", "c", []⟩], [], 0⟩ : DB) 20 1 = some db1 ∧
      ((10 : Nat) ∈ db1.followingOf 20 ↔
        ¬(10 : Nat) ∈ DB.followingOf (⟨[⟨1, 10, "t", "c", []⟩], [], 0⟩ : DB) 20) ∧
      (∀ v, v ≠ (10 : Nat) →
        (v ∈ db1.followingOf 20 ↔
         v ∈ DB.followingOf (⟨[⟨1, 10, "t", "c", []⟩], [], 0⟩ : DB) 20)) :=
  C7_follow_target_is_post_owner _ 20 1 ⟨1, 10, "t", "c", []⟩ rfl

/-- C8: when the requested post id does not exist, the lookup's Not-Found
condition propagates uncaught through the toggle bases and through each
concrete like/follow view (no redirect is produced), and no successor store
exists, so no set membership is changed. -/
theorem C8_missing_post_not_found (db : DB) (u pk : Nat) (h : db.getPost pk = none) :
    LikeBase_get db u pk = none ∧ FollowBase_get db u pk = none ∧
    LikeHome_get db u pk = none ∧ LikeDetail_get db u pk = none ∧
    FollowHome_get db u pk = none ∧ FollowDetail_get db u pk = none := by
  have hl := LikeBase_get_of_none db u pk h
  have hf := FollowBase_get_of_none db u pk h
  refine ⟨hl, hf, ?_, ?_, ?_, ?_⟩ <;>
    simp [LikeHome_get, LikeDetail_get, FollowHome_get, FollowDetail_get, hl, hf]

/-- Witness for C8: empty store, pk 1 absent. -/
theorem C8_witness :
    LikeBase_get (⟨[], [], 0⟩ : DB) 20 1 = none ∧
    FollowBase_get (⟨[], [], 0⟩ : DB) 20 1 = none ∧
    LikeHome_get (⟨[], [], 0⟩ : DB) 20 1 = none ∧
    LikeDetail_get (⟨[], [], 0⟩ : DB) 20 1 = none ∧
    FollowHome_get (⟨[], [], 0⟩ : DB) 20 1 = none ∧
    FollowDetail_get (⟨[], [], 0⟩ : DB) 20 1 = none :=
  C8_missing_post_not_found _ 20 1 rfl

/-- C9 counterexample: at the empty store with acting user 0, the value that
Home.get_context_data stores under 'connection' is the (object, created)
tuple returned by get_or_create, not the bare Connection entity, so the claim
that the context entry contains the Connection entity (usable directly as the
acting user's Connection) is false. -/
theorem C9_counterexample :
    (Home_get_context_data (⟨[], [], 0⟩ : DB) 0).1
      ≠ CtxVal.conn ((DB.getOrCreate (⟨[], [], 0⟩ : DB) 0).1) := by
  decide

/-- C9 amended: for every authenticated request to list-others, detail, or
list-following, the context entry named 'connection' holds the (Connection,
created) pair returned by get-or-create; its first component is the acting
user's Connection (its user field is the acting user, and it is the row found
for that user in the resulting store), so a reader must project the pair's
first component to obtain the Connection. -/
theorem C9_context_entry_is_pair (db : DB) (u pk : Nat) (post : Post)
    (h : db.getPost pk = some post) :
    (∃ c created rest,
      Home_get_context_data db u = (CtxVal.pair c created, rest) ∧ c.user = u ∧
        rest.connections.find? (fun x => x.user == u) = some c) ∧
    (∃ c created rest,
      DetailPost_get_context_data db u pk = some (post, CtxVal.pair c created, rest) ∧
        c.user = u ∧ rest.connections.find? (fun x => x.user == u) = some c) ∧
    (∃ c created rest,
      FollowList_get_context_data db u = (CtxVal.pair c created, rest) ∧ c.user = u ∧
        rest.connections.find? (fun x => x.user == u) = some c) := by
  refine ⟨⟨_, _, _, rfl, DB.getOrCreate_user db u, DB.getOrCreate_find db u⟩, ?_,
    ⟨_, _, _, rfl, DB.getOrCreate_user db u, DB.getOrCreate_find db u⟩⟩
  refine ⟨(db.getOrCreate u).1, (db.getOrCreate u).2.1, (db.getOrCreate u).2.2, ?_,
    DB.getOrCreate_user db u, DB.getOrCreate_find db u⟩
  unfold DetailPost_get_context_data
  rw [h]

/-- Witness for C9's amended theorem: one post (pk 1, owner 10), acting
user 20. -/
theorem C9_witness :
    (∃ c created rest,
      Home_get_context_data (⟨[⟨1, 10, "t", "c", []⟩], [], 0⟩ : DB) 20
          = (CtxVal.pair c created, rest) ∧ c.user = 20 ∧
        rest.connections.find? (fun x => x.user == 20) = some c) ∧
    (∃ c created rest,
      DetailPost_get_context_data (⟨[⟨1, 10, "t", "c", []⟩], [], 0⟩ : DB) 20 1
          = some (⟨1, 10, "t", "c", []⟩, CtxVal.pair c created, rest) ∧
        c.user = 20 ∧
        rest.connections.find? (fun x => x.user == 20) = some c) ∧
    (∃ c created rest,
      FollowList_get_context_data (⟨[⟨1, 10, "t", "c", []⟩], [], 0⟩ : DB) 20
          = (CtxVal.pair c created, rest) ∧ c.user = 20 ∧
        rest.connections.find? (fun x => x.user == 20) = some c) :=
  C9_context_entry_is_pair _ 20 1 ⟨1, 10, "t", "c", []⟩ rfl

/-- C10: each toggle touches only its own target relation.  A like toggle on
post pk by user u leaves the Connections and the allocator unchanged, keeps
every post's pk, owner, title and content, keeps the like set of every post
with a different pk, and within the target post's like set changes no user
other than u.  A follow toggle by user u leaves every post unchanged and the
following set of every other user unchanged. -/
theorem C10_toggle_frame (db : DB) (u pk : Nat) (post : Post) (hWF : db.WF)
    (h : db.getPost pk = some post) :
    (∀ db1, LikeBase_get db u pk = some db1 →
      db1.connections = db.connections ∧ db1.nextConnId = db.nextConnId ∧
      List.Forall₂ (fun p q : Post =>
        q.pk = p.pk ∧ q.user = p.user ∧ q.title = p.title ∧ q.content = p.content ∧
        (p.pk ≠ pk → q.like = p.like) ∧
        (∀ v, v ≠ u → (v ∈ q.like ↔ v ∈ p.like))) db.posts db1.posts) ∧
    (∀ db1, FollowBase_get db u pk = some db1 →
      db1.posts = db.posts ∧ ∀ v, v ≠ u → db1.followingOf v = db.followingOf v) := by
  constructor
  · intro db1 h1
    refine ⟨(connections_after_like db u pk post h db1 h1).1,
      (connections_after_like db u pk post h db1 h1).2, ?_⟩
    rw [LikeBase_get_eq db u pk post h] at h1
    cases h1
    show List.Forall₂ _ db.posts (db.posts.map _)
    rw [List.forall₂_map_right_iff, List.forall₂_same]
    intro p hp
    by_cases hpk : p.pk = pk
    · unfold likeUpd
      by_cases hm : u ∈ post.like
      · refine ⟨by simp [hpk, hm], by simp [hpk, hm], by simp [hpk, hm],
          by simp [hpk, hm], fun hc => absurd hpk hc, ?_⟩
        intro v hv
        simp [hpk, hm, List.mem_filter, hv]
      · refine ⟨by simp [hpk, hm], by simp [hpk, hm], by simp [hpk, hm],
          by simp [hpk, hm], fun hc => absurd hpk hc, ?_⟩
        intro v hv
        simp [hpk, hm, hv]
    · simp [hpk]
  · intro db1 h1
    exact ⟨posts_after_follow db u pk post h db1 h1,
      fun v hv => followingOf_other_after_follow db u pk post hWF h db1 h1 v hv⟩

/-- Witness for C10: store with one post (pk 1, owner 10) and one connection
(id 0, user 30), allocator at 1; acting user 20 toggles on pk 1. -/
theorem C10_witness :
    (∀ db1, LikeBase_get (⟨[⟨1, 10, "t", "c", []⟩], [⟨0, 30, []⟩], 1⟩ : DB) 20 1 = some db1 →
      db1.connections = (⟨[⟨1, 10, "t", "c", []⟩], [⟨0, 30, []⟩], 1⟩ : DB).connections ∧
      db1.nextConnId = (⟨[⟨1, 10, "t", "c", []⟩], [⟨0, 30, []⟩], 1⟩ : DB).nextConnId ∧
      List.Forall₂ (fun p q : Post =>
        q.pk = p.pk ∧ q.user = p.user ∧ q.title = p.title ∧ q.content = p.content ∧
        (p.pk ≠ 1 → q.like = p.like) ∧
        (∀ v, v ≠ 20 → (v ∈ q.like ↔ v ∈ p.like)))
        (⟨[⟨1, 10, "t", "c", []⟩], [⟨0, 30, []⟩], 1⟩ : DB).posts db1.posts) ∧
    (∀ db1, FollowBase_get (⟨[⟨1, 10, "t", "c", []⟩], [⟨0, 30, []⟩], 1⟩ : DB) 20 1 = some db1 →
      db1.posts = (⟨[⟨1, 10, "t", "c", []⟩], [⟨0, 30, []⟩], 1⟩ : DB).posts ∧
      ∀ v, v ≠ 20 →
        db1.followingOf v
          = DB.followingOf (⟨[⟨1, 10, "t", "c", []⟩], [⟨0, 30, []⟩], 1⟩ : DB) v) :=
  C10_toggle_frame _ 20 1 ⟨1, 10, "t", "c", []⟩ (by decide) rfl
